import Mathlib

/-!
Verification of the LTR_reporting data-processing pipeline
(`src/data_processor.py`) against its specification.

The pandas `DataFrame` is embedded column-major: a dataframe is a list of
named, dtype-tagged columns, each holding a list of cells.  Machine floats
are modelled as rationals; pandas `NaN`/`NaT`/`None` is the `Cell.null`
marker.  Timestamps are modelled as calendar days since the Unix epoch
(`Cell.time z`); the time-of-day component is irrelevant to every operation
treated here (ISO-week bucketing).
-/

set_option autoImplicit false

namespace LTRReporting

/-- Column dtype, mirroring the three pandas dtype classes the code
dispatches on: `np.number`, `object` (text) and `datetime64`. -/
inductive Dtype
  | numeric
  | text
  | datetime
  deriving DecidableEq, Repr

/-- A single dataframe cell.  `null` stands for `NaN`/`NaT`/`None`. -/
inductive Cell
  | num (q : ℚ)
  | str (s : String)
  | time (z : ℤ)
  | null
  deriving DecidableEq, Repr

/-- A named, typed column of cells. -/
structure Column where
  name  : String
  dtype : Dtype
  cells : List Cell
  deriving DecidableEq, Repr

/-- A dataframe: an ordered list of columns. -/
abbrev DataFrame := List Column

/-! ### Python string primitives

The cleaning code uses `in` (substring test), `str.split('[')[-1]` and
`str.replace(old, new)`.  These are modelled at the character-list level,
with Python's left-to-right non-overlapping replacement semantics. -/

/-- Predicate `isPref pat l` : `pat` is a prefix of `l` (Python slice comparison). -/
def isPref : List Char → List Char → Bool
  | [], _ => true
  | _ :: _, [] => false
  | a :: as, b :: bs => a == b && isPref as bs

/-- Auxiliary substring search: does `pat` occur in the list? -/
def containsAux (pat : List Char) : List Char → Bool
  | [] => isPref pat []
  | c :: cs => isPref pat (c :: cs) || containsAux pat cs

/-- Python `pat in s` (substring containment). -/
def containsSub (s pat : String) : Bool := containsAux pat.toList s.toList

/-- Fuel-indexed core of Python `str.replace`: replaces non-overlapping
occurrences of `old` left to right.  Fuel `≥` length of the list makes the
fuel-exhausted arm unreachable. -/
def replFuel (old new : List Char) : Nat → List Char → List Char
  | _, [] => []
  | 0, s => s
  | Nat.succ f, c :: cs =>
    if isPref old (c :: cs) then new ++ replFuel old new f (List.drop (old.length - 1) cs)
    else c :: replFuel old new f cs

/-- Python `s.replace(old, new)` for non-empty `old` (the code never
replaces an empty pattern). -/
def pyReplace (s old new : String) : String :=
  if old.toList.isEmpty then s
  else String.mk (replFuel old.toList new.toList s.toList.length s.toList)

/-- Python `s.split(sep)[-1]` for a one-character separator: the text after
the last occurrence of `sep` (the whole string when `sep` is absent). -/
def lastSplitPiece (sep : Char) (s : String) : String :=
  String.mk ((s.toList.reverse.takeWhile (fun ch => ch != sep)).reverse)

/-! ### Column Normalizer (`clean_column_names`, data_processor.py:93-128) -/

/-- The desktop-utilization table qualifier stripped at
data_processor.py:115. -/
def dvQualifier : String := "Dataverse_Desktop Machines Utilizations["

/-- The maintenance table qualifier stripped at data_processor.py:119. -/
def maintQualifier : String := "API_JIRA_Data_Maintenance["

/-- One column name through the renaming rules of `clean_column_names`
(data_processor.py:108-123): generic bracket rule, then the two exact
table-qualifier replacements, each condition tested on the original name,
later assignments overriding earlier ones. -/
def cleanName (col : String) : String :=
  let n1 := if containsSub col "[" && containsSub col "]"
    then pyReplace (lastSplitPiece '[' col) "]" "" else col
  let n2 := if containsSub col dvQualifier
    then pyReplace (pyReplace col dvQualifier "") "]" "" else n1
  let n3 := if containsSub col maintQualifier
    then pyReplace (pyReplace col maintQualifier "") "]" "" else n2
  n3

/-- Effect of `clean_column_names` on one column: the rename touches only the name. -/
def cleanColumn (c : Column) : Column := { c with name := cleanName c.name }

/-- Model of `clean_column_names` (data_processor.py:93-128): rename every column,
leaving all cell data untouched. -/
def clean_column_names (df : DataFrame) : DataFrame := df.map cleanColumn

/-! ### Type Coercion Stage (`convert_date_columns`, data_processor.py:130-152)

`pd.to_datetime(col, errors='coerce')` turns every value into either a
timestamp or `NaT`; the parser itself is library behaviour, so it enters the
embedding as an abstract total function `parse : Cell → Option ℤ`
(`none` = the value does not parse; `errors='coerce'` makes that a null,
never an exception). -/

/-- One cell through `pd.to_datetime(·, errors='coerce')`: a parse failure
becomes a null, a success becomes a timestamp. -/
def to_datetime (parse : Cell → Option ℤ) (c : Cell) : Cell :=
  match parse c with
  | some z => Cell.time z
  | none => Cell.null

/-- Model of `convert_date_columns` (data_processor.py:130-152): iterate over the
requested names; every column bearing a listed name is re-parsed to
datetime dtype, names absent from the frame are skipped. -/
def convert_date_columns (parse : Cell → Option ℤ) (df : DataFrame)
    (date_columns : List String) : DataFrame :=
  date_columns.foldl
    (fun acc col =>
      acc.map (fun c =>
        if c.name == col then
          { c with dtype := Dtype.datetime, cells := c.cells.map (to_datetime parse) }
        else c))
    df

/-! ### Missing-Value Resolver (`handle_missing_values`, data_processor.py:154-197) -/

/-- The numeric (non-null) values of a column, in order — pandas statistics
are computed with `skipna=True` over exactly these. -/
def numsOf (cs : List Cell) : List ℚ :=
  cs.filterMap (fun c => match c with | Cell.num q => some q | _ => none)

/-- Insertion step for sorting rationals. -/
def insertQ (x : ℚ) : List ℚ → List ℚ
  | [] => [x]
  | y :: ys => if x ≤ y then x :: y :: ys else y :: insertQ x ys

/-- Insertion sort on rationals (enough for the median). -/
def sortQ : List ℚ → List ℚ
  | [] => []
  | x :: xs => insertQ x (sortQ xs)

/-- Pandas `Series.median()` over the non-null values: middle element, or mean of
the two middles; `NaN` (here `none`) on an empty sample. -/
def medianQ (l : List ℚ) : Option ℚ :=
  match l with
  | [] => none
  | _ =>
    let s := sortQ l
    let n := s.length
    some (if n % 2 = 1 then s.getD (n / 2) 0
      else (s.getD (n / 2 - 1) 0 + s.getD (n / 2) 0) / 2)

/-- Pandas `Series.mean()` over the non-null values; `NaN` on an empty sample. -/
def meanQ (l : List ℚ) : Option ℚ :=
  match l with
  | [] => none
  | _ => some (l.sum / (l.length : ℚ))

/-- Pandas `fillna` with a numeric scalar that may itself be `NaN` (`none`):
filling with `NaN` leaves the nulls in place, exactly as pandas does when
the median/mean of an all-null column is fed back in. -/
def fillnaNum (v : Option ℚ) (cs : List Cell) : List Cell :=
  cs.map (fun c =>
    match c with
    | Cell.null => (match v with | some q => Cell.num q | none => Cell.null)
    | c => c)

/-- Pandas `fillna` with the sentinel string `'Unknown'` on a text column. -/
def fillnaUnknown (cs : List Cell) : List Cell :=
  cs.map (fun c => match c with | Cell.null => Cell.str "Unknown" | c => c)

/-- Pandas `Series.isnull().sum()`. -/
def countNulls (cs : List Cell) : Nat :=
  (cs.filter (fun c => c == Cell.null)).length

/-- Number of rows of a (rectangular) frame. -/
def nRows (df : DataFrame) : Nat :=
  match df with
  | [] => 0
  | c :: _ => c.cells.length

/-- Does row `i` hold a null in any column? (for `dropna`). -/
def rowHasNull (df : DataFrame) (i : Nat) : Bool :=
  df.any (fun c => c.cells.getD i Cell.null == Cell.null)

/-- Pandas `DataFrame.dropna()`: keep exactly the rows with no null anywhere. -/
def dropna (df : DataFrame) : DataFrame :=
  let keep := (List.range (nRows df)).filter (fun i => !(rowHasNull df i))
  df.map (fun c => { c with cells := keep.map (fun i => c.cells.getD i Cell.null) })

/-- One column through the non-drop branch of `handle_missing_values`
(data_processor.py:178-195): numeric columns with nulls are filled with the
median/mean when the strategy says so (any other strategy leaves them), text
(`object`) columns with nulls are filled with `'Unknown'`, datetime columns
are never touched. -/
def handleCol (strategy : String) (c : Column) : Column :=
  match c.dtype with
  | Dtype.numeric =>
    if countNulls c.cells > 0 then
      if strategy == "median" then
        { c with cells := fillnaNum (medianQ (numsOf c.cells)) c.cells }
      else if strategy == "mean" then
        { c with cells := fillnaNum (meanQ (numsOf c.cells)) c.cells }
      else c
    else c
  | Dtype.text =>
    if countNulls c.cells > 0 then { c with cells := fillnaUnknown c.cells } else c
  | Dtype.datetime => c

/-- Model of `handle_missing_values` (data_processor.py:154-197). -/
def handle_missing_values (df : DataFrame) (strategy : String) : DataFrame :=
  if strategy == "drop" then dropna df else df.map (handleCol strategy)

/-! ### Calendar arithmetic

`Series.dt.isocalendar()` is pandas/CPython library behaviour; it is
embedded by the standard proleptic-Gregorian conversions (days since the
Unix epoch ↔ civil date) and the ISO-8601 week rules. -/

/-- Civil (year, month, day) of a count of days since 1970-01-01
(proleptic Gregorian). -/
def civilFromDays (z : ℤ) : ℤ × ℤ × ℤ :=
  let z2 := z + 719468
  let era := Int.fdiv z2 146097
  let doe := z2 - era * 146097
  let yoe := Int.fdiv (doe - Int.fdiv doe 1460 + Int.fdiv doe 36524 - Int.fdiv doe 146096) 365
  let y := yoe + era * 400
  let doy := doe - (365 * yoe + Int.fdiv yoe 4 - Int.fdiv yoe 100)
  let mp := Int.fdiv (5 * doy + 2) 153
  let d := doy - Int.fdiv (153 * mp + 2) 5 + 1
  let m := mp + (if mp < 10 then 3 else -9)
  (y + (if m ≤ 2 then 1 else 0), m, d)

/-- Days since 1970-01-01 of a civil (year, month, day). -/
def daysFromCivil (y m d : ℤ) : ℤ :=
  let y2 := if m ≤ 2 then y - 1 else y
  let era := Int.fdiv y2 400
  let yoe := y2 - era * 400
  let mp := if m > 2 then m - 3 else m + 9
  let doy := Int.fdiv (153 * mp + 2) 5 + d - 1
  let doe := yoe * 365 + Int.fdiv yoe 4 - Int.fdiv yoe 100 + doy
  era * 146097 + doe - 719468

/-- ISO weekday (Monday = 1 … Sunday = 7) of an epoch-day count
(1970-01-01 was a Thursday). -/
def isoWeekday (z : ℤ) : ℤ := (z + 3).emod 7 + 1

/-- Number of ISO weeks in year `y`: 53 iff the year starts or ends on a
Thursday. -/
def isoWeeksInYear (y : ℤ) : ℤ :=
  if isoWeekday (daysFromCivil y 1 1) = 4 ∨ isoWeekday (daysFromCivil y 12 31) = 4
  then 53 else 52

/-- ISO-8601 (year, week) of an epoch-day count — the value pair produced
by `Timestamp.isocalendar()`. -/
def isoParts (z : ℤ) : ℤ × ℤ :=
  let y := (civilFromDays z).1
  let doy := z - daysFromCivil y 1 1 + 1
  let wd := isoWeekday z
  let w := Int.fdiv (doy - wd + 10) 7
  if w < 1 then (y - 1, isoWeeksInYear (y - 1))
  else if w > isoWeeksInYear y then (y + 1, 1)
  else (y, w)

/-- ISO year of an epoch-day count. -/
def isoYear (z : ℤ) : ℤ := (isoParts z).1

/-- ISO week number of an epoch-day count. -/
def isoWeek (z : ℤ) : ℤ := (isoParts z).2

/-! ### Temporal Bucketing Stage (`create_week_column`, data_processor.py:199-224) -/

/-- Python `str.zfill(n)` for the non-negative digit strings produced here:
left-pad with `'0'` to width `n`. -/
def zfill (n : Nat) (s : String) : String :=
  if s.length < n then String.mk (List.replicate (n - s.length) '0') ++ s else s

/-- Pandas `astype(str)` on one cell of the isocalendar columns: integral numbers
print without a fractional part, missing values print as pandas' `"<NA>"`. -/
def cellDecStr : Cell → String
  | Cell.num q => if q.den = 1 then toString q.num else toString q
  | Cell.str s => s
  | Cell.time z => toString z
  | Cell.null => "<NA>"

/-- Pandas `.dt.isocalendar().year` on one cell (`NaT` gives a missing value). -/
def yearCell : Cell → Cell
  | Cell.time z => Cell.num ((isoYear z : ℚ))
  | _ => Cell.null

/-- Pandas `.dt.isocalendar().week` on one cell (`NaT` gives a missing value). -/
def weekCell : Cell → Cell
  | Cell.time z => Cell.num ((isoWeek z : ℚ))
  | _ => Cell.null

/-- The Week Key construction of data_processor.py:217:
`Year.astype(str) + Week.astype(str).str.zfill(2)` on one row. -/
def ywConcat (y w : Cell) : Cell :=
  Cell.str (cellDecStr y ++ zfill 2 (cellDecStr w))

/-- First column bearing a given name (`df[name]` for the unique-name
frames this pipeline builds). -/
def findCol (df : DataFrame) (name : String) : Option Column :=
  df.find? (fun c => c.name == name)

/-- Python `'name' in df.columns`. -/
def hasColB (df : DataFrame) (name : String) : Bool :=
  df.any (fun c => c.name == name)

/-- Pandas column assignment `df[name] = column`: replace an existing column of that name in place,
else append it on the right. -/
def setCol (df : DataFrame) (c : Column) : DataFrame :=
  if df.any (fun x => x.name == c.name) then
    df.map (fun x => if x.name == c.name then c else x)
  else df ++ [c]

/-- Model of `create_week_column` (data_processor.py:199-224): when the designated
column exists and is datetime-typed, set `Year`, `Week` and `YearWeek`
columns derived from it; otherwise return the frame unchanged (the code
prints a warning and falls through to `return df_copy`).  The date column
is read once, which matches the code at every call site (the designated
column is never one of the derived names). -/
def create_week_column (df : DataFrame) (date_column : String) : DataFrame :=
  match findCol df date_column with
  | none => df
  | some c =>
    if c.dtype = Dtype.datetime then
      let yc := c.cells.map yearCell
      let wc := c.cells.map weekCell
      setCol (setCol (setCol df ⟨"Year", Dtype.numeric, yc⟩) ⟨"Week", Dtype.numeric, wc⟩)
        ⟨"YearWeek", Dtype.text, List.zipWith ywConcat yc wc⟩
    else df

/-! ### Cross-Dataset Correlator (`calculate_correlation_metrics`,
data_processor.py:226-270) -/

/-- Aggregation kind requested in the `.agg({...})` dictionaries. -/
inductive AggKind
  | sum
  | mean
  deriving DecidableEq, Repr

/-- A grouped aggregate over the non-null numeric values of one group:
pandas' `'sum'` of an empty/all-null group is 0, its `'mean'` is missing. -/
def aggregate : AggKind → List ℚ → Cell
  | AggKind.sum, l => Cell.num l.sum
  | AggKind.mean, [] => Cell.null
  | AggKind.mean, l => Cell.num (l.sum / (l.length : ℚ))

/-- Group keys usable by `groupby` here: the string cells (null keys are
dropped by `groupby`, and the Week Keys this pipeline groups on are always
strings). -/
def cellKeyStr : Cell → Option String
  | Cell.str s => some s
  | _ => none

/-- Keep the first occurrence of every string, dropping later duplicates. -/
def dedupKeep : List String → List String
  | [] => []
  | x :: xs => x :: (dedupKeep xs).filter (fun y => y ≠ x)

/-- Lexicographic comparison of character lists by code point — the order
in which pandas sorts string group keys. -/
def charListLt : List Char → List Char → Bool
  | [], [] => false
  | [], _ :: _ => true
  | _ :: _, [] => false
  | a :: as, b :: bs =>
    if a.toNat < b.toNat then true
    else if b.toNat < a.toNat then false
    else charListLt as bs

/-- Lexicographic string comparison (`<`). -/
def strLtB (a b : String) : Bool := charListLt a.toList b.toList

/-- Insertion step for sorting strings. -/
def insertStr (x : String) : List String → List String
  | [] => [x]
  | y :: ys => if strLtB x y then x :: y :: ys else y :: insertStr x ys

/-- Insertion sort on strings (lexicographic, as pandas sorts group keys). -/
def sortStrs : List String → List String
  | [] => []
  | x :: xs => insertStr x (sortStrs xs)

/-- The distinct group keys in ascending order (`groupby(..., sort=True)`). -/
def uniqueSorted (l : List String) : List String := sortStrs (dedupKeep l)

/-- The value cells of one group: the cells of `vcells` at the positions
where the key column holds the string `k`. -/
def groupVals (kcells vcells : List Cell) (k : String) : List Cell :=
  (List.zip kcells vcells).filterMap
    (fun p => if p.1 = Cell.str k then some p.2 else none)

/-- Pandas `df.groupby(key).agg(d).reset_index()`: one row per distinct key in
ascending order; key column first, then one aggregated numeric column per
dictionary entry.  `none` models the `KeyError` raised (and caught at
data_processor.py:268) when an aggregation column is absent. -/
def groupbyAgg (df : DataFrame) (key : String) (aggs : List (String × AggKind)) :
    Option DataFrame :=
  match findCol df key with
  | none => none
  | some kc =>
    if aggs.all (fun p => hasColB df p.1) then
      let keys := uniqueSorted (kc.cells.filterMap cellKeyStr)
      some (⟨key, Dtype.text, keys.map Cell.str⟩ ::
        aggs.map (fun p =>
          let vc := (((findCol df p.1).map Column.cells)).getD []
          ⟨p.1, Dtype.numeric,
            keys.map (fun k => aggregate p.2 (numsOf (groupVals kc.cells vc k)))⟩))
    else none

/-- The matched (left-row, right-row) index pairs of an inner join on
equal key cells, in left-key order (`pd.merge(..., how='inner')`). -/
def pairIdx (lk rk : List Cell) : List (Nat × Nat) :=
  (List.range lk.length).flatMap
    (fun i => (List.range rk.length).filterMap
      (fun j => if lk.getD i Cell.null = rk.getD j Cell.null then some (i, j) else none))

/-- Gather the cells of a column at a list of row indices. -/
def takeIdx (cells : List Cell) (idx : List Nat) : List Cell :=
  idx.map (fun i => cells.getD i Cell.null)

/-- Pandas `pd.merge(l, r, on=key, how='inner')`: the left columns (key included)
restricted to the matched left rows, then the right non-key columns
restricted to the matched right rows. -/
def pdMergeInner (l r : DataFrame) (key : String) : DataFrame :=
  let lk := ((findCol l key).map Column.cells).getD []
  let rk := ((findCol r key).map Column.cells).getD []
  let prs := pairIdx lk rk
  l.map (fun c => { c with cells := takeIdx c.cells (prs.map Prod.fst) }) ++
    (r.filter (fun c => c.name != key)).map
      (fun c => { c with cells := takeIdx c.cells (prs.map Prod.snd) })

/-- The cells of the Week-Key column of the joined weekly table. -/
def mergedKeyCells (mw uw : DataFrame) : List Cell :=
  ((findCol (pdMergeInner mw uw "YearWeek") "YearWeek").map Column.cells).getD []

/-- The numeric column names of a frame
(`df.select_dtypes(include=np.number).columns`) — the index set of the
Pearson correlation matrix. -/
def numericColNames (df : DataFrame) : List String :=
  (df.filter (fun c => c.dtype == Dtype.numeric)).map Column.name

/-- The maintenance `.agg` dictionary of data_processor.py:244-248. -/
def maintAggs : List (String × AggKind) :=
  [("SumMaintenance_Hours", AggKind.sum),
   ("Total_Maintenance_Tickets_By_Week", AggKind.mean),
   ("Maintenance_Time_Allocation_Percentage", AggKind.mean)]

/-- The utilization `.agg` dictionary of data_processor.py:250-256. -/
def utilAggs : List (String × AggKind) :=
  [("SumRuntime_duration__mins_", AggKind.sum),
   ("Machine_Utilization__", AggKind.mean),
   ("Idle_Percentage__", AggKind.mean),
   ("Desktop_Flow_Success_Rate_Goal", AggKind.mean),
   ("Desktop_Run_Percent_Success", AggKind.mean)]

/-- The Python return value of `calculate_correlation_metrics`: either the
bare `None` of data_processor.py:241, or a 2-tuple.  The second tuple slot
carries the index set of the correlation matrix; the matrix entries are
floating-point Pearson coefficients, outside this rational embedding and
outside every claim. -/
inductive CorrResult
  | noneRet
  | pairRet (corr : Option DataFrame) (matrixCols : Option (List String))
  deriving DecidableEq, Repr

/-- Model of `calculate_correlation_metrics` (data_processor.py:226-270): bare
`None` when either frame lacks `YearWeek`; `(None, None)` when the caught
`KeyError` path fires (an aggregation column is absent); otherwise the
joined weekly table and the matrix index. -/
def calculate_correlation_metrics (m u : DataFrame) : CorrResult :=
  if !(hasColB m "YearWeek") || !(hasColB u "YearWeek") then CorrResult.noneRet
  else
    match groupbyAgg m "YearWeek" maintAggs, groupbyAgg u "YearWeek" utilAggs with
    | some mw, some uw =>
      let cdf := pdMergeInner mw uw "YearWeek"
      CorrResult.pairRet (some cdf) (some (numericColNames cdf))
    | _, _ => CorrResult.pairRet none none

/-- The tuple unpacking `correlation_df, correlation_matrix = ...` at
data_processor.py:339: unpacking `None` raises `TypeError` in `main`,
where nothing catches it. -/
def unpackPair (r : CorrResult) :
    Except String (Option DataFrame × Option (List String)) :=
  match r with
  | CorrResult.noneRet =>
    Except.error "TypeError: cannot unpack non-iterable NoneType object"
  | CorrResult.pairRet a b => Except.ok (a, b)

/-! ### Source-file discovery (`load_csv_files`, data_processor.py:36-91)

The directory listing enters as the list of file names; reading the CSV
contents is I/O outside the claims.  The result is the classified file
names, or the list of missing logical names (the `FileNotFoundError`
message of data_processor.py:72, after which the handler returns
`(None, None, None)`). -/

/-- The three per-pattern matches accumulated by the loop at
data_processor.py:53-60. -/
structure FoundFiles where
  epics : Option String
  maintenance : Option String
  utilization : Option String
  deriving DecidableEq, Repr

/-- Python `s.endswith(suf)`. -/
def pyEndsWith (s suf : String) : Bool :=
  isPref suf.toList.reverse s.toList.reverse

/-- One file name through the `elif` classification chain (a later match
for the same pattern overwrites an earlier one, as reassignment does). -/
def classify (st : FoundFiles) (file : String) : FoundFiles :=
  if pyEndsWith file ".csv" then
    if containsSub file "API_JIRA_Data_Epics" then { st with epics := some file }
    else if containsSub file "API_JIRA_Data_Maintenance_Query" then
      { st with maintenance := some file }
    else if containsSub file "Dataverse Desktop Machine Utilizations" then
      { st with utilization := some file }
    else st
  else st

/-- The missing logical names, in the fixed order of
data_processor.py:64-70. -/
def missingNames (st : FoundFiles) : List String :=
  (if st.epics.isNone then ["API_JIRA_Data_Epics"] else []) ++
    (if st.maintenance.isNone then ["API_JIRA_Data_Maintenance_Query"] else []) ++
      (if st.utilization.isNone then ["Dataverse Desktop Machine Utilizations"] else [])

/-- Model of `load_csv_files` (data_processor.py:36-91) up to the actual CSV reads:
all three found → the three file names; otherwise the error naming exactly
the missing ones (and the function returns no datasets). -/
def load_csv_files (files : List String) : Except (List String) (String × String × String) :=
  let st := files.foldl classify ⟨none, none, none⟩
  match st.epics, st.maintenance, st.utilization with
  | some e, some m, some u => Except.ok (e, m, u)
  | _, _, _ => Except.error (missingNames st)

/-! ### Well-formedness

The pandas dtype invariant: a column's cells match its dtype (a float64
column holds floats or `NaN`, an object column of this pipeline holds
strings or `NaN`, a datetime column holds timestamps or `NaT`).  Every
frame pandas builds satisfies it. -/

/-- Does a cell fit a dtype? -/
def cellFits : Dtype → Cell → Bool
  | Dtype.numeric, Cell.num _ => true
  | Dtype.numeric, Cell.null => true
  | Dtype.numeric, _ => false
  | Dtype.text, Cell.str _ => true
  | Dtype.text, Cell.null => true
  | Dtype.text, _ => false
  | Dtype.datetime, Cell.time _ => true
  | Dtype.datetime, Cell.null => true
  | Dtype.datetime, _ => false

/-- A column's cells all fit its dtype. -/
def wfCol (c : Column) : Bool := c.cells.all (cellFits c.dtype)

/-- Every column of the frame is well-formed. -/
def wfB (df : DataFrame) : Bool := df.all wfCol

/-! ### Concrete frames used by counterexamples and witnesses -/

/-- A column name on which the generic bracket rule meets a second `]`
after the last `[`. -/
def cexBracketName : String := "A[B]C]"

/-- Spec wording of the Column Normalizer rule ("the substring following
the last `[` with the trailing `]` removed"), stated for comparison with
the code's behaviour. -/
def specLastBracketName (col : String) : String :=
  let t := (lastSplitPiece '[' col).toList
  String.mk (if t.getLast? = some ']' then t.dropLast else t)

/-- A raw column name on which stripping the desktop-utilization qualifier
re-creates an occurrence of that qualifier, so a second normalization pass
changes the name again. -/
def c6name : String :=
  "Dataverse_DesktopDataverse_Desktop Machines Utilizations[ Machines Utilizations[x]"

/-- One-column frame carrying `c6name`. -/
def dfC6 : DataFrame := [⟨c6name, Dtype.text, []⟩]

/-- Qualifier-free frame for the amended idempotence statement. -/
def dfC6w : DataFrame :=
  [⟨"API_JIRA_Data_Epics[created]", Dtype.text, [Cell.str "v"]⟩,
   ⟨"plain", Dtype.text, []⟩]

/-- A frame whose single numeric column is entirely null. -/
def dfC3cex : DataFrame := [⟨"a", Dtype.numeric, [Cell.null]⟩]

/-- A well-formed frame with a partially-null numeric column and a null
text cell. -/
def dfC3w : DataFrame :=
  [⟨"n", Dtype.numeric, [Cell.null, Cell.num 4]⟩,
   ⟨"t", Dtype.text, [Cell.null]⟩]

/-- Frame for the non-drop resolver witness. -/
def dfC10w : DataFrame :=
  [⟨"n", Dtype.numeric, [Cell.null, Cell.num 2]⟩,
   ⟨"t", Dtype.text, [Cell.null]⟩]

/-- A concrete timestamp parser for the coercion witness: it recognises a
single literal and fails on everything else. -/
def parseC4w : Cell → Option ℤ :=
  fun c => match c with | Cell.str "2025-01-15" => some 20103 | _ => none

/-- Frame for the coercion witness: one date column with a parseable
value, an unparseable value and a null. -/
def dfC4w : DataFrame :=
  [⟨"created", Dtype.text, [Cell.str "2025-01-15", Cell.str "junk", Cell.null]⟩]

/-- Frame whose `created` column is datetime-typed and holds 2025-01-15
(epoch day 20103, ISO week 3 of 2025). -/
def dfC5w : DataFrame := [⟨"created", Dtype.datetime, [Cell.time 20103]⟩]

/-- The `created` column of `dfC5w`. -/
def colC5w : Column := ⟨"created", Dtype.datetime, [Cell.time 20103]⟩

/-- Frame whose `created` column exists but is text-typed. -/
def dfC7w : DataFrame := [⟨"created", Dtype.text, [Cell.str "2025-01-15"]⟩]

/-- Directory listing missing the maintenance extract. -/
def filesC9w : List String :=
  ["API_JIRA_Data_Epics_x.csv", "Dataverse Desktop Machine Utilizations.csv"]

/-- Maintenance frame already bucketed with Week Keys 202501, 202502. -/
def exM : DataFrame :=
  [⟨"YearWeek", Dtype.text, [Cell.str "202501", Cell.str "202502"]⟩,
   ⟨"SumMaintenance_Hours", Dtype.numeric, [Cell.num 1, Cell.num 2]⟩,
   ⟨"Total_Maintenance_Tickets_By_Week", Dtype.numeric, [Cell.num 1, Cell.num 2]⟩,
   ⟨"Maintenance_Time_Allocation_Percentage", Dtype.numeric, [Cell.num 1, Cell.num 2]⟩]

/-- Utilization frame already bucketed with Week Keys 202502, 202503. -/
def exU : DataFrame :=
  [⟨"YearWeek", Dtype.text, [Cell.str "202502", Cell.str "202503"]⟩,
   ⟨"SumRuntime_duration__mins_", Dtype.numeric, [Cell.num 3, Cell.num 4]⟩,
   ⟨"Machine_Utilization__", Dtype.numeric, [Cell.num 3, Cell.num 4]⟩,
   ⟨"Idle_Percentage__", Dtype.numeric, [Cell.num 3, Cell.num 4]⟩,
   ⟨"Desktop_Flow_Success_Rate_Goal", Dtype.numeric, [Cell.num 3, Cell.num 4]⟩,
   ⟨"Desktop_Run_Percent_Success", Dtype.numeric, [Cell.num 3, Cell.num 4]⟩]

/-- The Week-Key cells of the joined weekly table the correlator returns
(`none` when the correlator does not produce a joined table). -/
def corrKeyCells (m u : DataFrame) : Option (List Cell) :=
  match calculate_correlation_metrics m u with
  | CorrResult.pairRet (some d) _ =>
    some (((findCol d "YearWeek").map Column.cells).getD [])
  | _ => none

/-! ## Lemmas about the Python string primitives -/

theorem replFuel_nil (old new : List Char) (fuel : Nat) :
    replFuel old new fuel [] = [] := by
  cases fuel <;> rfl

theorem replFuel_single_del (c : Char) (l : List Char) (fuel : Nat)
    (h : l.length ≤ fuel) :
    replFuel [c] [] fuel l = l.filter (fun ch => ch != c) := by
  induction l generalizing fuel with
  | nil => simp [replFuel_nil]
  | cons x xs ih =>
    cases fuel with
    | zero => simp at h
    | succ f =>
      have hlen : xs.length ≤ f := by simpa using h
      show (if isPref [c] (x :: xs) then [] ++ replFuel [c] [] f (List.drop 0 xs)
        else x :: replFuel [c] [] f xs) = _
      by_cases hc : c = x
      · subst hc
        simp [isPref, List.filter_cons, ih f hlen]
      · have hb : (c == x) = false := by simp [hc]
        simp [isPref, hb, List.filter_cons, Ne.symm hc, ih f hlen]

theorem pyReplace_del_bracket (s : String) :
    pyReplace s "]" "" = String.mk (s.toList.filter (fun ch => ch != ']')) := by
  have h1 : ("]" : String).toList = [']'] := rfl
  have h2 : ("" : String).toList = [] := rfl
  simp only [pyReplace, h1, h2, List.isEmpty_cons, if_false, Bool.false_eq_true]
  rw [replFuel_single_del ']' s.toList s.toList.length (le_refl _)]

theorem isPref_mem {p l : List Char} (h : isPref p l = true) :
    ∀ ch ∈ p, ch ∈ l := by
  induction p generalizing l with
  | nil => simp
  | cons a as ih =>
    cases l with
    | nil => simp [isPref] at h
    | cons b bs =>
      simp only [isPref, Bool.and_eq_true, beq_iff_eq] at h
      intro ch hch
      rcases List.mem_cons.mp hch with h1 | h1
      · subst h1; exact List.mem_cons.mpr (Or.inl h.1)
      · exact List.mem_cons.mpr (Or.inr (ih h.2 ch h1))

theorem containsAux_mem {pat l : List Char} (h : containsAux pat l = true) :
    ∀ ch ∈ pat, ch ∈ l := by
  induction l with
  | nil =>
    cases pat with
    | nil => simp
    | cons a as => simp [containsAux, isPref] at h
  | cons b bs ih =>
    simp only [containsAux, Bool.or_eq_true] at h
    rcases h with h | h
    · exact isPref_mem h
    · exact fun ch hch => List.mem_cons.mpr (Or.inr (ih h ch hch))

theorem containsSub_mem {s pat : String} (h : containsSub s pat = true) :
    ∀ ch ∈ pat.toList, ch ∈ s.toList :=
  containsAux_mem h

theorem not_containsSub_of_no_char {s pat : String} {c : Char}
    (hc : c ∈ pat.toList) (hs : c ∉ s.toList) : containsSub s pat = false := by
  cases h : containsSub s pat with
  | false => rfl
  | true => exact absurd (containsSub_mem h c hc) hs

theorem containsAux_singleton_of_mem {c : Char} {l : List Char} (h : c ∈ l) :
    containsAux [c] l = true := by
  induction l with
  | nil => simp at h
  | cons b bs ih =>
    rcases List.mem_cons.mp h with h1 | h1
    · subst h1
      simp [containsAux, isPref]
    · simp [containsAux, ih h1]

theorem lastSplitPiece_no_sep (sep : Char) (s : String) :
    sep ∉ (lastSplitPiece sep s).toList := by
  intro hmem
  have h1 : (lastSplitPiece sep s).toList
      = (s.toList.reverse.takeWhile (fun ch => ch != sep)).reverse := rfl
  rw [h1, List.mem_reverse] at hmem
  have := List.mem_takeWhile_imp hmem
  simp at this

/-! ## Lemmas about `cleanName` -/

theorem cleanName_skip (col : String)
    (h1 : (containsSub col "[" && containsSub col "]") = false)
    (hd : containsSub col dvQualifier = false)
    (hm : containsSub col maintQualifier = false) :
    cleanName col = col := by
  simp [cleanName, h1, hd, hm]

theorem cleanName_generic (col : String)
    (h1 : (containsSub col "[" && containsSub col "]") = true)
    (hd : containsSub col dvQualifier = false)
    (hm : containsSub col maintQualifier = false) :
    cleanName col = String.mk ((lastSplitPiece '[' col).toList.filter (fun ch => ch != ']')) := by
  simp [cleanName, h1, hd, hm, pyReplace_del_bracket]

theorem lbracket_mem_dvQualifier : '[' ∈ dvQualifier.toList := by decide

theorem lbracket_mem_maintQualifier : '[' ∈ maintQualifier.toList := by decide

theorem cleanName_idem (col : String)
    (hd : containsSub col dvQualifier = false)
    (hm : containsSub col maintQualifier = false) :
    cleanName (cleanName col) = cleanName col := by
  cases h1 : (containsSub col "[" && containsSub col "]") with
  | false =>
    rw [cleanName_skip col h1 hd hm]
    exact cleanName_skip col h1 hd hm
  | true =>
    rw [cleanName_generic col h1 hd hm]
    set r := String.mk ((lastSplitPiece '[' col).toList.filter (fun ch => ch != ']')) with hr
    have hrl : r.toList = (lastSplitPiece '[' col).toList.filter (fun ch => ch != ']') := rfl
    have hnb : '[' ∉ r.toList := by
      rw [hrl]
      intro hmem
      exact lastSplitPiece_no_sep '[' col (List.mem_of_mem_filter hmem)
    have hb1 : containsSub r "[" = false :=
      not_containsSub_of_no_char (by decide) hnb
    have hbd : containsSub r dvQualifier = false :=
      not_containsSub_of_no_char lbracket_mem_dvQualifier hnb
    have hbm : containsSub r maintQualifier = false :=
      not_containsSub_of_no_char lbracket_mem_maintQualifier hnb
    exact cleanName_skip r (by simp [hb1]) hbd hbm

/-! ## Claim theorems: Column Normalizer -/

/-- Claim C2 counterexample: on the name `"A[B]C]"` the code removes every
`]` after the last `[` (yielding `"BC"`), not just the trailing one
(which would yield `"B]C"`), so the claim as stated fails. -/
theorem clean_name_trailing_only_cex :
    cleanName cexBracketName = "BC" ∧ specLastBracketName cexBracketName = "B]C" ∧
      cleanName cexBracketName ≠ specLastBracketName cexBracketName := by decide

/-- Claim C2 (amended): for a column name containing both `[` and `]` and
not containing either literal table qualifier, the new name is the
substring following the last `[` with every `]` removed. -/
theorem clean_name_generic_rule (col : String)
    (h1 : containsSub col "[" = true) (h2 : containsSub col "]" = true)
    (hd : containsSub col dvQualifier = false)
    (hm : containsSub col maintQualifier = false) :
    cleanName col =
      String.mk ((lastSplitPiece '[' col).toList.filter (fun ch => ch != ']')) :=
  cleanName_generic col (by simp [h1, h2]) hd hm

/-- Witness for the amended C2 rule at the concrete name
`"API_JIRA_Data_Epics[created]"`. -/
theorem clean_name_generic_rule_w :
    cleanName "API_JIRA_Data_Epics[created]" =
      String.mk ((lastSplitPiece '[' "API_JIRA_Data_Epics[created]").toList.filter
        (fun ch => ch != ']')) :=
  clean_name_generic_rule "API_JIRA_Data_Epics[created]"
    (by decide) (by decide) (by decide) (by decide)

/-- Claim C6 counterexample: normalizing `dfC6` once yields a table that a
second normalization pass changes again — qualifier stripping can re-create
a qualifier occurrence, so the Column Normalizer is not idempotent. -/
theorem clean_column_names_idempotence_cex :
    clean_column_names (clean_column_names dfC6) ≠ clean_column_names dfC6 := by decide

/-- Claim C6 (amended): on tables none of whose column names contain the
two literal table qualifiers, running the Column Normalizer twice equals
running it once; a column name with no brackets always passes through
unchanged, and cell data is never touched. -/
theorem clean_column_names_idempotent (df : DataFrame)
    (h : ∀ c ∈ df, containsSub c.name dvQualifier = false ∧
      containsSub c.name maintQualifier = false) :
    clean_column_names (clean_column_names df) = clean_column_names df ∧
    (∀ c : Column, containsSub c.name "[" = false →
      containsSub c.name "]" = false → cleanColumn c = c) ∧
    (clean_column_names df).map Column.cells = df.map Column.cells := by
  refine ⟨?_, ?_, ?_⟩
  · show (df.map cleanColumn).map cleanColumn = df.map cleanColumn
    rw [List.map_map]
    apply List.map_congr_left
    intro c hc
    show cleanColumn (cleanColumn c) = cleanColumn c
    have hidem := cleanName_idem c.name (h c hc).1 (h c hc).2
    simp [cleanColumn, hidem]
  · intro c h1 h2
    have hnb : '[' ∉ c.name.toList := by
      intro hmem
      have h1' : containsAux ['['] c.name.toList = false := h1
      rw [containsAux_singleton_of_mem hmem] at h1'
      simp at h1'
    have hbd : containsSub c.name dvQualifier = false :=
      not_containsSub_of_no_char lbracket_mem_dvQualifier hnb
    have hbm : containsSub c.name maintQualifier = false :=
      not_containsSub_of_no_char lbracket_mem_maintQualifier hnb
    have : cleanName c.name = c.name := cleanName_skip c.name (by simp [h1]) hbd hbm
    simp [cleanColumn, this]
  · show (df.map cleanColumn).map Column.cells = df.map Column.cells
    rw [List.map_map]
    rfl

/-- Witness for the amended C6 statement on the qualifier-free frame
`dfC6w`. -/
theorem clean_column_names_idempotent_w :
    clean_column_names (clean_column_names dfC6w) = clean_column_names dfC6w ∧
    (∀ c : Column, containsSub c.name "[" = false →
      containsSub c.name "]" = false → cleanColumn c = c) ∧
    (clean_column_names dfC6w).map Column.cells = dfC6w.map Column.cells :=
  clean_column_names_idempotent dfC6w (by decide)

/-! ## Claim theorems: Cross-Dataset Correlator precondition (C1) -/

/-- Claim C1 (code bug): when either frame lacks the `YearWeek` column,
`calculate_correlation_metrics` returns the bare `None` of
data_processor.py:241, and the tuple unpacking at data_processor.py:339
then raises `TypeError` inside `main`, where nothing catches it — the
pipeline run crashes instead of completing without correlation output. -/
theorem correlation_missing_week_key_crash (m u : DataFrame)
    (h : hasColB m "YearWeek" = false ∨ hasColB u "YearWeek" = false) :
    unpackPair (calculate_correlation_metrics m u) =
      Except.error "TypeError: cannot unpack non-iterable NoneType object" := by
  rcases h with h | h <;> simp [calculate_correlation_metrics, h, unpackPair]

/-- Witness: two empty frames lack `YearWeek`, and the modelled `main`
step raises. -/
theorem correlation_missing_week_key_crash_w :
    unpackPair (calculate_correlation_metrics [] []) =
      Except.error "TypeError: cannot unpack non-iterable NoneType object" :=
  correlation_missing_week_key_crash [] [] (Or.inl rfl)

/-! ## Claim theorems: Temporal Bucketing skip path (C7) -/

/-- Claim C7: when the designated timestamp column is missing, or present
but not datetime-typed, `create_week_column` returns the frame unchanged
(the code only prints a warning and returns the untouched copy). -/
theorem create_week_column_skip (df : DataFrame) (dc : String)
    (h : findCol df dc = none ∨
      ∃ c, findCol df dc = some c ∧ c.dtype ≠ Dtype.datetime) :
    create_week_column df dc = df := by
  rcases h with h | ⟨c, hc, hd⟩
  · simp [create_week_column, h]
  · simp [create_week_column, hc, hd]

/-- Witness: a text-typed `created` column passes through unchanged. -/
theorem create_week_column_skip_w : create_week_column dfC7w "created" = dfC7w :=
  create_week_column_skip dfC7w "created"
    (Or.inr ⟨⟨"created", Dtype.text, [Cell.str "2025-01-15"]⟩, rfl, by decide⟩)

/-! ## Claim theorems: source-file discovery (C9) -/

theorem missingNames_mem (st : FoundFiles) :
    ("API_JIRA_Data_Epics" ∈ missingNames st ↔ st.epics = none) ∧
    ("API_JIRA_Data_Maintenance_Query" ∈ missingNames st ↔ st.maintenance = none) ∧
    ("Dataverse Desktop Machine Utilizations" ∈ missingNames st ↔ st.utilization = none) := by
  obtain ⟨e, m, u⟩ := st
  cases e <;> cases m <;> cases u <;> simp [missingNames]

/-- Claim C9: whenever at least one of the three source files is missing
from the directory listing, the load step fails, reporting a non-empty
list holding exactly the missing logical names (each name is listed iff
its file was not found), and returns no datasets. -/
theorem load_csv_files_missing (files : List String)
    (h : (files.foldl classify ⟨none, none, none⟩).epics = none ∨
      (files.foldl classify ⟨none, none, none⟩).maintenance = none ∨
      (files.foldl classify ⟨none, none, none⟩).utilization = none) :
    load_csv_files files =
      Except.error (missingNames (files.foldl classify ⟨none, none, none⟩)) ∧
    ("API_JIRA_Data_Epics" ∈ missingNames (files.foldl classify ⟨none, none, none⟩) ↔
      (files.foldl classify ⟨none, none, none⟩).epics = none) ∧
    ("API_JIRA_Data_Maintenance_Query" ∈
        missingNames (files.foldl classify ⟨none, none, none⟩) ↔
      (files.foldl classify ⟨none, none, none⟩).maintenance = none) ∧
    ("Dataverse Desktop Machine Utilizations" ∈
        missingNames (files.foldl classify ⟨none, none, none⟩) ↔
      (files.foldl classify ⟨none, none, none⟩).utilization = none) ∧
    missingNames (files.foldl classify ⟨none, none, none⟩) ≠ [] := by
  have hmem := missingNames_mem (files.foldl classify ⟨none, none, none⟩)
  refine ⟨?_, hmem.1, hmem.2.1, hmem.2.2, ?_⟩
  · unfold load_csv_files
    rcases hE : (files.foldl classify ⟨none, none, none⟩).epics with _ | e <;>
      rcases hM : (files.foldl classify ⟨none, none, none⟩).maintenance with _ | m <;>
        rcases hU : (files.foldl classify ⟨none, none, none⟩).utilization with _ | u <;>
          (simp [hE, hM, hU]; try (rcases h with h | h | h <;> simp_all))
  · rcases h with h | h | h
    · exact List.ne_nil_of_mem (hmem.1.mpr h)
    · exact List.ne_nil_of_mem (hmem.2.1.mpr h)
    · exact List.ne_nil_of_mem (hmem.2.2.mpr h)

/-- Witness: with the maintenance extract absent, the load step reports
exactly `["API_JIRA_Data_Maintenance_Query"]` and returns no datasets. -/
theorem load_csv_files_missing_w :
    load_csv_files filesC9w =
      Except.error (missingNames (filesC9w.foldl classify ⟨none, none, none⟩)) ∧
    ("API_JIRA_Data_Epics" ∈ missingNames (filesC9w.foldl classify ⟨none, none, none⟩) ↔
      (filesC9w.foldl classify ⟨none, none, none⟩).epics = none) ∧
    ("API_JIRA_Data_Maintenance_Query" ∈
        missingNames (filesC9w.foldl classify ⟨none, none, none⟩) ↔
      (filesC9w.foldl classify ⟨none, none, none⟩).maintenance = none) ∧
    ("Dataverse Desktop Machine Utilizations" ∈
        missingNames (filesC9w.foldl classify ⟨none, none, none⟩) ↔
      (filesC9w.foldl classify ⟨none, none, none⟩).utilization = none) ∧
    missingNames (filesC9w.foldl classify ⟨none, none, none⟩) ≠ [] :=
  load_csv_files_missing filesC9w (Or.inr (Or.inl (by decide)))

/-! ## Lemmas about the Missing-Value Resolver -/

theorem mem_of_getElem?_eq {α : Type} {l : List α} {j : Nat} {a : α}
    (h : l[j]? = some a) : a ∈ l := by
  rcases List.getElem?_eq_some.mp h with ⟨hlt, hget⟩
  exact hget ▸ List.getElem_mem hlt

theorem countNulls_eq_zero_iff (cs : List Cell) :
    countNulls cs = 0 ↔ Cell.null ∉ cs := by
  constructor
  · intro h hmem
    have hmemf : Cell.null ∈ cs.filter (fun c => c == Cell.null) :=
      List.mem_filter.mpr ⟨hmem, by simp⟩
    have hpos := List.length_pos.mpr (List.ne_nil_of_mem hmemf)
    unfold countNulls at h
    omega
  · intro h
    have : cs.filter (fun c => c == Cell.null) = [] := by
      rw [List.filter_eq_nil_iff]
      intro a ha
      simp only [beq_iff_eq]
      intro he
      exact h (he ▸ ha)
    simp [countNulls, this]

theorem null_not_mem_fillnaUnknown (cs : List Cell) :
    Cell.null ∉ fillnaUnknown cs := by
  intro hmem
  rcases List.mem_map.mp hmem with ⟨x, _, hx⟩
  cases x <;> simp at hx

theorem null_not_mem_fillnaNum_some (q : ℚ) (cs : List Cell) :
    Cell.null ∉ fillnaNum (some q) cs := by
  intro hmem
  rcases List.mem_map.mp hmem with ⟨x, _, hx⟩
  cases x <;> simp at hx

theorem medianQ_of_ne_nil (l : List ℚ) (h : l ≠ []) : ∃ q, medianQ l = some q := by
  cases l with
  | nil => exact absurd rfl h
  | cons a as => exact ⟨_, rfl⟩

theorem meanQ_of_ne_nil (l : List ℚ) (h : l ≠ []) : ∃ q, meanQ l = some q := by
  cases l with
  | nil => exact absurd rfl h
  | cons a as => exact ⟨_, rfl⟩

theorem numsOf_ne_nil_of_mem {q : ℚ} {cs : List Cell} (h : Cell.num q ∈ cs) :
    numsOf cs ≠ [] := by
  apply List.ne_nil_of_mem (a := q)
  exact List.mem_filterMap.mpr ⟨Cell.num q, h, rfl⟩

theorem fillnaNum_getElem (v : Option ℚ) (cs : List Cell) (j : Nat) (w : Cell)
    (hw : cs[j]? = some w) (hn : w ≠ Cell.null) :
    (fillnaNum v cs)[j]? = some w := by
  unfold fillnaNum
  rw [List.getElem?_map, hw]
  cases w <;> simp at hn ⊢

theorem fillnaUnknown_getElem_null (cs : List Cell) (j : Nat)
    (hw : cs[j]? = some Cell.null) :
    (fillnaUnknown cs)[j]? = some (Cell.str "Unknown") := by
  unfold fillnaUnknown
  rw [List.getElem?_map, hw]
  rfl

theorem fillnaUnknown_getElem (cs : List Cell) (j : Nat) (w : Cell)
    (hw : cs[j]? = some w) (hn : w ≠ Cell.null) :
    (fillnaUnknown cs)[j]? = some w := by
  unfold fillnaUnknown
  rw [List.getElem?_map, hw]
  cases w <;> simp at hn ⊢

/-! ## Claim theorems: Missing-Value Resolver (C10, C3) -/

/-- Claim C10: for every strategy other than `'drop'`, the resolver keeps
the column count, every column's name, dtype and cell count, leaves every
non-null cell in place (row count and order preserved), turns every null
of a text column into `'Unknown'`, and leaves numeric columns entirely
untouched unless the strategy is `'median'` or `'mean'`. -/
theorem resolver_non_drop (df : DataFrame) (strategy : String)
    (hs : strategy ≠ "drop") :
    (handle_missing_values df strategy).length = df.length ∧
    ∀ (i : Nat) (c : Column), df[i]? = some c →
      ∃ c' : Column, (handle_missing_values df strategy)[i]? = some c' ∧
        c'.name = c.name ∧ c'.dtype = c.dtype ∧
        c'.cells.length = c.cells.length ∧
        (∀ (j : Nat) (v : Cell), c.cells[j]? = some v → v ≠ Cell.null →
          c'.cells[j]? = some v) ∧
        (c.dtype = Dtype.text → ∀ j : Nat, c.cells[j]? = some Cell.null →
          c'.cells[j]? = some (Cell.str "Unknown")) ∧
        (c.dtype = Dtype.numeric → strategy ≠ "median" → strategy ≠ "mean" → c' = c) := by
  have hb : (strategy == "drop") = false := by
    simp [hs]
  have hmap : handle_missing_values df strategy = df.map (handleCol strategy) := by
    simp [handle_missing_values, hb]
  rw [hmap]
  refine ⟨List.length_map _ _, ?_⟩
  intro i c hc
  refine ⟨handleCol strategy c, by rw [List.getElem?_map, hc]; rfl, ?_⟩
  rcases c with ⟨nm, dt, cls⟩
  cases dt with
  | numeric =>
    by_cases hg : countNulls cls > 0
    · by_cases hmed : (strategy == "median") = true
      · have hcol : handleCol strategy ⟨nm, Dtype.numeric, cls⟩ =
            ⟨nm, Dtype.numeric, fillnaNum (medianQ (numsOf cls)) cls⟩ := by
          simp [handleCol, hg, hmed]
        rw [hcol]
        refine ⟨rfl, rfl, by simp [fillnaNum], ?_, ?_, ?_⟩
        · intro j v hv hn
          exact fillnaNum_getElem _ _ _ _ hv hn
        · intro h
          exact absurd h (by simp)
        · intro _ hmed2 _
          exact absurd (by simpa using hmed) hmed2
      · by_cases hmean : (strategy == "mean") = true
        · have hcol : handleCol strategy ⟨nm, Dtype.numeric, cls⟩ =
              ⟨nm, Dtype.numeric, fillnaNum (meanQ (numsOf cls)) cls⟩ := by
            simp [handleCol, hg, hmed, hmean]
          rw [hcol]
          refine ⟨rfl, rfl, by simp [fillnaNum], ?_, ?_, ?_⟩
          · intro j v hv hn
            exact fillnaNum_getElem _ _ _ _ hv hn
          · intro h
            exact absurd h (by simp)
          · intro _ _ hmean2
            exact absurd (by simpa using hmean) hmean2
        · have hcol : handleCol strategy ⟨nm, Dtype.numeric, cls⟩ =
              ⟨nm, Dtype.numeric, cls⟩ := by
            simp [handleCol, hg, hmed, hmean]
          rw [hcol]
          exact ⟨rfl, rfl, rfl, fun j v hv _ => hv, fun h => absurd h (by simp),
            fun _ _ _ => rfl⟩
    · have hcol : handleCol strategy ⟨nm, Dtype.numeric, cls⟩ =
          ⟨nm, Dtype.numeric, cls⟩ := by
        simp [handleCol, hg]
      rw [hcol]
      exact ⟨rfl, rfl, rfl, fun j v hv _ => hv, fun h => absurd h (by simp),
        fun _ _ _ => rfl⟩
  | text =>
    by_cases hg : countNulls cls > 0
    · have hcol : handleCol strategy ⟨nm, Dtype.text, cls⟩ =
          ⟨nm, Dtype.text, fillnaUnknown cls⟩ := by
        simp [handleCol, hg]
      rw [hcol]
      refine ⟨rfl, rfl, by simp [fillnaUnknown], ?_, ?_, ?_⟩
      · intro j v hv hn
        exact fillnaUnknown_getElem _ _ _ hv hn
      · intro _ j hv
        exact fillnaUnknown_getElem_null _ _ hv
      · intro h
        exact absurd h (by simp)
    · have hcol : handleCol strategy ⟨nm, Dtype.text, cls⟩ =
          ⟨nm, Dtype.text, cls⟩ := by
        simp [handleCol, hg]
      rw [hcol]
      refine ⟨rfl, rfl, rfl, fun j v hv _ => hv, ?_, fun h => absurd h (by simp)⟩
      intro _ j hv
      have hple : countNulls cls = 0 := by omega
      exact absurd (mem_of_getElem?_eq hv) ((countNulls_eq_zero_iff cls).mp hple)
  | datetime =>
    have hcol : handleCol strategy ⟨nm, Dtype.datetime, cls⟩ =
        ⟨nm, Dtype.datetime, cls⟩ := by
      simp [handleCol]
    rw [hcol]
    exact ⟨rfl, rfl, rfl, fun j v hv _ => hv, fun h => absurd h (by simp),
      fun h => absurd h (by simp)⟩

/-- Witness: the resolver with the non-drop, non-imputing strategy
`"ffill"` keeps the column count of `dfC10w`. -/
theorem resolver_non_drop_w :
    (handle_missing_values dfC10w "ffill").length = dfC10w.length :=
  (resolver_non_drop dfC10w "ffill" (by decide)).1

/-- Claim C3 counterexample: on a well-formed frame whose single numeric
column is entirely null, the median strategy feeds `fillna` a missing
median, so the null survives — the claimed universal completeness fails. -/
theorem imputation_completeness_cex :
    handle_missing_values dfC3cex "median" = dfC3cex ∧
    (dfC3cex.headD ⟨"", Dtype.text, []⟩).dtype = Dtype.numeric ∧
    Cell.null ∈ ((handle_missing_values dfC3cex "median").headD ⟨"", Dtype.text, []⟩).cells ∧
    wfB dfC3cex = true := by decide

/-- Claim C3 (amended): for strategy median or mean, after resolution no
text column contains a null, and no numeric column containing at least one
numeric value contains a null; an entirely-null numeric column keeps its
nulls (timestamp columns are exempt throughout). -/
theorem imputation_completeness (df : DataFrame) (strategy : String)
    (hs : strategy = "median" ∨ strategy = "mean")
    (i : Nat) (c c' : Column) (hc : df[i]? = some c)
    (hc' : (handle_missing_values df strategy)[i]? = some c') :
    (c.dtype = Dtype.text → Cell.null ∉ c'.cells) ∧
    (c.dtype = Dtype.numeric → (∃ q, Cell.num q ∈ c.cells) → Cell.null ∉ c'.cells) := by
  have hb : (strategy == "drop") = false := by
    rcases hs with h | h <;> simp [h]
  have hmap : handle_missing_values df strategy = df.map (handleCol strategy) := by
    simp [handle_missing_values, hb]
  rw [hmap, List.getElem?_map, hc] at hc'
  have hc'' : c' = handleCol strategy c := by
    simpa using hc'.symm
  subst hc''
  rcases c with ⟨nm, dt, cls⟩
  constructor
  · intro hdt
    simp only at hdt
    subst hdt
    by_cases hg : countNulls cls > 0
    · have hcol : handleCol strategy ⟨nm, Dtype.text, cls⟩ =
          ⟨nm, Dtype.text, fillnaUnknown cls⟩ := by
        simp [handleCol, hg]
      rw [hcol]
      exact null_not_mem_fillnaUnknown cls
    · have hcol : handleCol strategy ⟨nm, Dtype.text, cls⟩ =
          ⟨nm, Dtype.text, cls⟩ := by
        simp [handleCol, hg]
      rw [hcol]
      exact (countNulls_eq_zero_iff cls).mp (by omega)
  · intro hdt hex
    simp only at hdt
    subst hdt
    rcases hex with ⟨q, hq⟩
    have hnn : numsOf cls ≠ [] := numsOf_ne_nil_of_mem hq
    by_cases hg : countNulls cls > 0
    · rcases hs with h | h
      · rcases medianQ_of_ne_nil _ hnn with ⟨m, hm⟩
        have hcol : handleCol strategy ⟨nm, Dtype.numeric, cls⟩ =
            ⟨nm, Dtype.numeric, fillnaNum (medianQ (numsOf cls)) cls⟩ := by
          simp [handleCol, hg, h]
        rw [hcol]
        simp only [hm]
        exact null_not_mem_fillnaNum_some m cls
      · rcases meanQ_of_ne_nil _ hnn with ⟨m, hm⟩
        have hcol : handleCol strategy ⟨nm, Dtype.numeric, cls⟩ =
            ⟨nm, Dtype.numeric, fillnaNum (meanQ (numsOf cls)) cls⟩ := by
          simp [handleCol, hg, h]
        rw [hcol]
        simp only [hm]
        exact null_not_mem_fillnaNum_some m cls
    · have hcol : handleCol strategy ⟨nm, Dtype.numeric, cls⟩ =
          ⟨nm, Dtype.numeric, cls⟩ := by
        simp [handleCol, hg]
      rw [hcol]
      exact (countNulls_eq_zero_iff cls).mp (by omega)

/-- Witness for the amended C3 statement: the partially-null numeric
column of `dfC3w` is null-free after median imputation. -/
theorem imputation_completeness_w :
    Cell.null ∉ (Column.mk "n" Dtype.numeric [Cell.num 4, Cell.num 4]).cells :=
  (imputation_completeness dfC3w "median" (Or.inl rfl) 0
      ⟨"n", Dtype.numeric, [Cell.null, Cell.num 4]⟩
      ⟨"n", Dtype.numeric, [Cell.num 4, Cell.num 4]⟩ rfl (by decide)).2
    rfl ⟨4, by decide⟩

/-! ## Claim theorems: Type Coercion Stage (C4) -/

theorem convert_cells_positional (parse : Cell → Option ℤ) (date_columns : List String)
    (df : DataFrame) :
    (convert_date_columns parse df date_columns).length = df.length ∧
    ∀ (i : Nat) (c : Column), df[i]? = some c →
      ∃ c' : Column, (convert_date_columns parse df date_columns)[i]? = some c' ∧
        c'.name = c.name ∧
        (c.name ∉ date_columns → c' = c) ∧
        c'.cells = c.cells.map (fun v =>
          (to_datetime parse)^[date_columns.count c.name] v) := by
  induction date_columns generalizing df with
  | nil =>
    refine ⟨rfl, ?_⟩
    intro i c hc
    refine ⟨c, hc, rfl, fun _ => rfl, ?_⟩
    simp
  | cons col rest ih =>
    set g : Column → Column := fun c =>
      if c.name == col then
        { c with dtype := Dtype.datetime, cells := c.cells.map (to_datetime parse) }
      else c with hg
    have hstep : convert_date_columns parse df (col :: rest) =
        convert_date_columns parse (df.map g) rest := rfl
    obtain ⟨ihlen, ihspec⟩ := ih (df.map g)
    constructor
    · rw [hstep, ihlen, List.length_map]
    · intro i c hc
      have hgc : (df.map g)[i]? = some (g c) := by
        rw [List.getElem?_map, hc]
        rfl
      obtain ⟨c', hc', hname, hnot, hcells⟩ := ihspec i (g c) hgc
      have hgname : (g c).name = c.name := by
        rw [hg]
        by_cases h : c.name = col
        · simp [h]
        · simp [h]
      refine ⟨c', by rw [hstep]; exact hc', by rw [hname, hgname], ?_, ?_⟩
      · intro hnotin
        have h1 : c.name ≠ col := fun he => hnotin (he ▸ List.mem_cons_self col rest)
        have h2 : c.name ∉ rest := fun hr => hnotin (List.mem_cons_of_mem col hr)
        have hgcc : g c = c := by simp [hg, h1]
        have := hnot (by rw [hgname]; exact h2)
        rw [this, hgcc]
      · rw [hcells, hgname]
        by_cases hcol : c.name = col
        · have hgc2 : g c = ⟨c.name, Dtype.datetime, c.cells.map (to_datetime parse)⟩ := by
            rw [hg]
            simp [hcol]
          have hcnt : (col :: rest).count c.name = rest.count c.name + 1 := by
            rw [List.count_cons]
            simp [hcol]
          rw [hgc2, hcnt]
          show (c.cells.map (to_datetime parse)).map
              (fun v => (to_datetime parse)^[rest.count c.name] v) = _
          rw [List.map_map]
          apply List.map_congr_left
          intro v _
          show (to_datetime parse)^[rest.count c.name] (to_datetime parse v) =
            (to_datetime parse)^[rest.count c.name + 1] v
          rw [Function.iterate_succ_apply]
        · have hgcc : g c = c := by simp [hg, hcol]
          have hcnt : (col :: rest).count c.name = rest.count c.name := by
            rw [List.count_cons]
            simp [Ne.symm hcol]
          rw [hgcc, hcnt]

/-- Claim C4: for every frame, every list of target names and every parse
behaviour, the coercion stage is total (it never raises): the column count
is preserved, every column keeps its name and cell count, unlisted columns
are untouched, and for a listed column the output cell at every row
position j is exactly the conversion of the input cell at position j (row
count and row order preserved) — in particular a value whose (final)
timestamp parse fails becomes a null at its own position, and a value that
parses becomes that timestamp at its own position. -/
theorem coercion_safety (parse : Cell → Option ℤ) (date_columns : List String)
    (df : DataFrame) :
    (convert_date_columns parse df date_columns).length = df.length ∧
    ∀ (i : Nat) (c : Column), df[i]? = some c →
      ∃ c' : Column, (convert_date_columns parse df date_columns)[i]? = some c' ∧
        c'.name = c.name ∧
        c'.cells.length = c.cells.length ∧
        (c.name ∉ date_columns → c' = c) ∧
        (∀ j : Nat, c'.cells[j]? = (c.cells[j]?).map
          (fun v => (to_datetime parse)^[date_columns.count c.name] v)) ∧
        (c.name ∈ date_columns → ∀ (j : Nat) (v : Cell), c.cells[j]? = some v →
          (parse ((to_datetime parse)^[date_columns.count c.name - 1] v) = none →
            c'.cells[j]? = some Cell.null) ∧
          (∀ z : ℤ, parse ((to_datetime parse)^[date_columns.count c.name - 1] v) = some z →
            c'.cells[j]? = some (Cell.time z))) := by
  obtain ⟨hlen, hspec⟩ := convert_cells_positional parse date_columns df
  refine ⟨hlen, ?_⟩
  intro i c hc
  obtain ⟨c', hfind, hname, hunl, hcells⟩ := hspec i c hc
  refine ⟨c', hfind, hname, by rw [hcells, List.length_map], hunl, ?_, ?_⟩
  · intro j
    rw [hcells, List.getElem?_map]
  · intro hmem j v hv
    have hcnt : 0 < date_columns.count c.name := List.count_pos_iff.mpr hmem
    obtain ⟨k, hk⟩ : ∃ k, date_columns.count c.name = k + 1 :=
      ⟨date_columns.count c.name - 1, by omega⟩
    have hval : c'.cells[j]? = some ((to_datetime parse)^[k + 1] v) := by
      rw [hcells, List.getElem?_map, hv, hk]
      rfl
    have hk1 : date_columns.count c.name - 1 = k := by omega
    rw [hk1]
    constructor
    · intro hfailp
      rw [hval, Function.iterate_succ_apply']
      simp [to_datetime, hfailp]
    · intro z hokp
      rw [hval, Function.iterate_succ_apply']
      simp [to_datetime, hokp]

/-- Witness: coercing `dfC4w` (values: one parseable date, one junk
string, one null) over the names `["created", "missing"]` with the
concrete parser `parseC4w` keeps the column count, and the resulting
cells are, in row order, the parsed timestamp, a null for the junk value
and a null for the null. -/
theorem coercion_safety_w :
    (convert_date_columns parseC4w dfC4w ["created", "missing"]).length = dfC4w.length ∧
    (convert_date_columns parseC4w dfC4w ["created", "missing"]).map Column.cells =
      [[Cell.time 20103, Cell.null, Cell.null]] :=
  ⟨(coercion_safety parseC4w ["created", "missing"] dfC4w).1, by decide⟩

/-! ## Claim theorems: Temporal Bucketing Week Key (C5) -/

theorem findCol_map_replace (df : DataFrame) (c : Column)
    (h : df.any (fun x => x.name == c.name) = true) :
    (df.map (fun x => if x.name == c.name then c else x)).find?
      (fun x => x.name == c.name) = some c := by
  induction df with
  | nil => simp at h
  | cons hd tl ih =>
    by_cases hh : (hd.name == c.name) = true
    · rw [List.map_cons, if_pos hh]
      exact List.find?_cons_of_pos _ (by simp)
    · rw [List.map_cons, if_neg hh]
      have hhf : (hd.name == c.name) = false := by simpa using hh
      rw [show List.find? (fun x => x.name == c.name)
          (hd :: (tl.map (fun x => if x.name == c.name then c else x))) =
          List.find? (fun x => x.name == c.name)
            (tl.map (fun x => if x.name == c.name then c else x)) from
        List.find?_cons_of_neg _ hh]
      apply ih
      rcases List.any_eq_true.mp h with ⟨x, hx, hpx⟩
      rcases List.mem_cons.mp hx with h1 | h1
      · exact absurd (h1 ▸ hpx) hh
      · exact List.any_eq_true.mpr ⟨x, h1, hpx⟩

theorem findCol_setCol_self (df : DataFrame) (c : Column) :
    findCol (setCol df c) c.name = some c := by
  unfold setCol findCol
  by_cases hAny : df.any (fun x => x.name == c.name) = true
  · rw [if_pos hAny]
    exact findCol_map_replace df c hAny
  · rw [if_neg hAny]
    have hnone : df.find? (fun x => x.name == c.name) = none := by
      rw [List.find?_eq_none]
      intro x hx
      have := List.any_eq_false.mp (Bool.eq_false_iff.mpr hAny) x hx
      exact this
    rw [List.find?_append, hnone]
    simp [List.find?]

theorem cellDecStr_intCast (n : ℤ) :
    cellDecStr (Cell.num ((n : ℚ))) = toString n := by
  simp [cellDecStr, Rat.den_intCast, Rat.num_intCast]

theorem ywConcat_time (z : ℤ) :
    ywConcat (yearCell (Cell.time z)) (weekCell (Cell.time z)) =
      Cell.str (toString (isoYear z) ++ zfill 2 (toString (isoWeek z))) := by
  simp [ywConcat, yearCell, weekCell, cellDecStr_intCast]

/-- Claim C5: on a frame whose designated column is datetime-typed, the
`YearWeek` column `create_week_column` produces is, row by row, the
string concatenation of the ISO year and the zero-padded two-digit ISO
week of the row's timestamp; in particular every timestamp lying in ISO
week 3 of 2025 yields the literal Week Key `"202503"`. -/
theorem week_key_format (df : DataFrame) (dc : String) (c : Column)
    (hf : findCol df dc = some c) (hd : c.dtype = Dtype.datetime) :
    (∃ ywc : Column, findCol (create_week_column df dc) "YearWeek" = some ywc ∧
      ywc.cells = c.cells.map (fun v => ywConcat (yearCell v) (weekCell v))) ∧
    (∀ z : ℤ, ywConcat (yearCell (Cell.time z)) (weekCell (Cell.time z)) =
      Cell.str (toString (isoYear z) ++ zfill 2 (toString (isoWeek z)))) ∧
    (∀ z : ℤ, isoYear z = 2025 → isoWeek z = 3 →
      ywConcat (yearCell (Cell.time z)) (weekCell (Cell.time z)) = Cell.str "202503") := by
  refine ⟨?_, ywConcat_time, ?_⟩
  · have hcw : create_week_column df dc =
        setCol (setCol (setCol df ⟨"Year", Dtype.numeric, c.cells.map yearCell⟩)
            ⟨"Week", Dtype.numeric, c.cells.map weekCell⟩)
          ⟨"YearWeek", Dtype.text,
            List.zipWith ywConcat (c.cells.map yearCell) (c.cells.map weekCell)⟩ := by
      unfold create_week_column
      rw [hf]
      simp [hd]
    refine ⟨⟨"YearWeek", Dtype.text,
      List.zipWith ywConcat (c.cells.map yearCell) (c.cells.map weekCell)⟩, ?_, ?_⟩
    · rw [hcw]
      exact findCol_setCol_self _ _
    · show List.zipWith ywConcat (c.cells.map yearCell) (c.cells.map weekCell) = _
      rw [List.zipWith_map, List.zipWith_same]
  · intro z h1 h2
    rw [ywConcat_time, h1, h2]
    rfl

/-- Witness: on `dfC5w` (timestamp 2025-01-15, epoch day 20103) the Week
Key cell is `"202503"`. -/
theorem week_key_format_w :
    ywConcat (yearCell (Cell.time 20103)) (weekCell (Cell.time 20103)) =
      Cell.str "202503" :=
  (week_key_format dfC5w "created" colC5w rfl rfl).2.2 20103 (by decide) (by decide)

/-! ## Claim theorems: Cross-Dataset Correlator join (C8) -/

theorem mem_join_keys_core (lk rk : List Cell) (v : Cell) :
    v ∈ takeIdx lk ((pairIdx lk rk).map Prod.fst) ↔ v ∈ lk ∧ v ∈ rk := by
  unfold takeIdx pairIdx
  rw [List.map_map]
  constructor
  · intro hv
    rcases List.mem_map.mp hv with ⟨p, hp, hpe⟩
    rcases List.mem_flatMap.mp hp with ⟨i, hi, hfm⟩
    rcases List.mem_filterMap.mp hfm with ⟨j, hj, hcond⟩
    by_cases hceq : lk.getD i Cell.null = rk.getD j Cell.null
    · rw [if_pos hceq] at hcond
      have hpij : p = (i, j) := (Option.some.inj hcond).symm
      subst hpij
      have hi' : i < lk.length := List.mem_range.mp hi
      have hj' : j < rk.length := List.mem_range.mp hj
      have hvl : lk.getD i Cell.null = v := hpe
      constructor
      · rw [← hvl, List.getD_eq_getElem lk _ hi']
        exact List.getElem_mem hi'
      · rw [← hvl, hceq, List.getD_eq_getElem rk _ hj']
        exact List.getElem_mem hj'
    · rw [if_neg hceq] at hcond
      exact absurd hcond (by simp)
  · rintro ⟨hl, hr⟩
    rcases List.getElem_of_mem hl with ⟨i, hi, hie⟩
    rcases List.getElem_of_mem hr with ⟨j, hj, hje⟩
    apply List.mem_map.mpr
    have hcond : lk.getD i Cell.null = rk.getD j Cell.null := by
      rw [List.getD_eq_getElem lk _ hi, List.getD_eq_getElem rk _ hj, hie, hje]
    refine ⟨(i, j), ?_, ?_⟩
    · apply List.mem_flatMap.mpr
      refine ⟨i, List.mem_range.mpr hi, ?_⟩
      apply List.mem_filterMap.mpr
      exact ⟨j, List.mem_range.mpr hj, by rw [if_pos hcond]⟩
    · show lk.getD i Cell.null = v
      rw [List.getD_eq_getElem lk _ hi, hie]

theorem mergedKeyCells_eq (mw uw : DataFrame) (mkc ukc : Column)
    (hm : findCol mw "YearWeek" = some mkc) (hu : findCol uw "YearWeek" = some ukc) :
    mergedKeyCells mw uw =
      takeIdx mkc.cells ((pairIdx mkc.cells ukc.cells).map Prod.fst) := by
  unfold mergedKeyCells pdMergeInner
  rw [hm, hu]
  simp only [Option.map_some, Option.getD_some, Option.map_some']
  have hfind : List.find? (fun c : Column => c.name == "YearWeek")
      (mw.map (fun c : Column => Column.mk c.name c.dtype
        (takeIdx c.cells ((pairIdx mkc.cells ukc.cells).map Prod.fst)))) =
      some (Column.mk mkc.name mkc.dtype
        (takeIdx mkc.cells ((pairIdx mkc.cells ukc.cells).map Prod.fst))) := by
    rw [List.find?_map]
    have hcomp : ((fun c : Column => c.name == "YearWeek") ∘
        (fun c : Column => Column.mk c.name c.dtype
          (takeIdx c.cells ((pairIdx mkc.cells ukc.cells).map Prod.fst)))) =
        (fun c : Column => c.name == "YearWeek") := by
      funext c
      rfl
    rw [hcomp]
    unfold findCol at hm
    rw [hm]
    rfl
  unfold findCol
  rw [List.find?_append, hfind]
  rfl

/-- Claim C8: the correlator's join is an inner join on the Week Key — a
key cell appears in the joined weekly table iff it appears in both weekly
aggregates — and on concrete weekly data with maintenance keys
{202501, 202502} and utilization keys {202502, 202503} the whole
correlator returns exactly one joined row, keyed `"202502"`. -/
theorem join_inner_week_keys :
    (∀ (mw uw : DataFrame) (mkc ukc : Column),
      findCol mw "YearWeek" = some mkc → findCol uw "YearWeek" = some ukc →
      ∀ v : Cell, v ∈ mergedKeyCells mw uw ↔ v ∈ mkc.cells ∧ v ∈ ukc.cells) ∧
    corrKeyCells exM exU = some [Cell.str "202502"] := by
  constructor
  · intro mw uw mkc ukc hm hu v
    rw [mergedKeyCells_eq mw uw mkc ukc hm hu]
    exact mem_join_keys_core _ _ v
  · decide

/-- Witness: the general join-membership statement applied to the concrete
weekly aggregates `exM`/`exU` at the key `"202502"`. -/
theorem join_inner_week_keys_w :
    Cell.str "202502" ∈ mergedKeyCells exM exU ↔
      Cell.str "202502" ∈ [Cell.str "202501", Cell.str "202502"] ∧
      Cell.str "202502" ∈ [Cell.str "202502", Cell.str "202503"] :=
  join_inner_week_keys.1 exM exU
    ⟨"YearWeek", Dtype.text, [Cell.str "202501", Cell.str "202502"]⟩
    ⟨"YearWeek", Dtype.text, [Cell.str "202502", Cell.str "202503"]⟩
    rfl rfl (Cell.str "202502")

end LTRReporting

